import Mathlib

/-
Verification of the ATC MiThermometer firmware-update integration.

Shallow embedding of the Python sources in custom_components/atc_mithermometer:
  const.py      : constants and normalize_mac
  __init__.py   : versions_equal (source name _versions_equal) and the
                  apply_firmware service orchestration
  firmware.py   : FirmwareManager (download, checksum validation, checksum
                  extraction from release notes, BLE OTA flash, GitHub fetch
                  with rate-limit retry, unified apply_firmware_update)
  update.py     : ATCMiThermometerUpdate.async_install (update entity install)

Effectful Python code (HTTP, BLE, sleeps, progress callbacks) is embedded as
pure functions over explicit environment parameters, returning the value the
Python function produces together with a trace of the externally visible
events (HTTP requests, backoff sleeps, BLE connection attempts, GATT writes,
progress-callback invocations). Raised HomeAssistantError values are embedded
as Except.error carrying the message.
-/

namespace ATC

/-! ## Character and string helpers (ASCII models of Python str methods) -/

/-- Hexadecimal digit test, models the regex class [a-fA-F0-9] and the set of
digits accepted by int(s, 16). -/
def isHexDigit (c : Char) : Bool :=
  (48 ≤ c.toNat && c.toNat ≤ 57) ||
  (97 ≤ c.toNat && c.toNat ≤ 102) ||
  (65 ≤ c.toNat && c.toNat ≤ 70)

/-- Decimal digit test, models the regex class [0-9]. -/
def isDigitChar (c : Char) : Bool :=
  48 ≤ c.toNat && c.toNat ≤ 57

/-- ASCII lowercase of one character (models Python str.lower on the ASCII
inputs this code handles: hex digests, algorithm names, MAC addresses). -/
def lowerChar (c : Char) : Char :=
  if 65 ≤ c.toNat ∧ c.toNat ≤ 90 then Char.ofNat (c.toNat + 32) else c

/-- ASCII uppercase of one character (models Python str.upper). -/
def upperChar (c : Char) : Char :=
  if 97 ≤ c.toNat ∧ c.toNat ≤ 122 then Char.ofNat (c.toNat - 32) else c

/-- Lowercase a string, character by character. -/
def asciiLower (s : String) : String := ⟨s.data.map lowerChar⟩

/-- Whitespace test, models the regex class backslash-s and the whitespace
stripped by int(s, 16) (ASCII range). -/
def isWS (c : Char) : Bool :=
  c = ' ' || c = '\t' || c = '\n' || c = '\x0d' ||
  c.toNat = 11 || c.toNat = 12

/-- Boolean test that p is a prefix of l (list of characters). -/
def startsList : List Char → List Char → Bool
  | [], _ => true
  | _ :: _, [] => false
  | p :: ps, c :: cs => p = c && startsList ps cs

/-- Case-insensitive prefix test (models a regex literal under re.IGNORECASE). -/
def ciStarts : List Char → List Char → Bool
  | [], _ => true
  | _ :: _, [] => false
  | p :: ps, c :: cs => lowerChar p = lowerChar c && ciStarts ps cs

/-! ## Version Comparator: _versions_equal in custom_components/atc_mithermometer/__init__.py -/

/-- Model of Python str.lstrip("v"): drop every leading lowercase v. -/
def lstripV : List Char → List Char
  | 'v' :: rest => lstripV rest
  | l => l

/-- Numeric value of a digit string. -/
def digitsToNat (l : List Char) : Nat :=
  l.foldl (fun n c => n * 10 + (c.toNat - 48)) 0

/-- Release components with trailing zeros removed; packaging compares release
tuples after padding with zeros, so two releases are equal iff these agree. -/
def dropTrailingZeros (l : List Nat) : List Nat :=
  (l.reverse.dropWhile (fun n => n = 0)).reverse

/-! ### Model of packaging.version.parse (PEP 440)

The packaging library matches a version against the anchored, case-insensitive
VERSION_PATTERN: optional whitespace, one optional v, an optional numeric
epoch before an exclamation mark, a dotted numeric release, optional
pre-release, post-release and dev segments (each with an optional dash,
underscore or dot separator and an optional number), an optional +local part,
and trailing whitespace; anything else raises InvalidVersion. The functions
below implement that grammar with the leftmost-greedy, backtracking choice
order of the regex engine, in continuation style: each stage returns the
parsed tail components or None, and ordered candidate lists realise the
backtracking of the optional separator, optional number, and label
alternations. -/

/-- Lowercase-alphanumeric test for local version segments. -/
def isAlnumLower (c : Char) : Bool :=
  isDigitChar c || (97 ≤ c.toNat && c.toNat ≤ 122)

/-- Separator characters accepted between version components. -/
def isSepChar (c : Char) : Bool := c = '-' || c = '_' || c = '.'

/-- One local-version segment: numeric segments compare as integers, other
segments as strings (packaging parses each local part with int when it is a
digit run). -/
def localSegOf (s : List Char) : Sum Nat String :=
  if s.all isDigitChar then Sum.inl (digitsToNat s) else Sum.inr ⟨s⟩

/-- Parse the local version after the plus sign: one or more alphanumeric
runs separated by single dash, underscore or dot characters, followed only by
trailing whitespace. Fuel is the input length. -/
def parseLocalList : Nat → List Char → Option (List (Sum Nat String))
  | 0, _ => none
  | fuel + 1, l =>
    let seg := l.takeWhile isAlnumLower
    let rest := l.dropWhile isAlnumLower
    if seg.isEmpty then none
    else
      match rest with
      | [] => some [localSegOf seg]
      | c :: rest2 =>
        if isSepChar c then (parseLocalList fuel rest2).map (fun t => localSegOf seg :: t)
        else if rest.all isWS then some [localSegOf seg]
        else none

/-- After the dev segment: an optional +local part, then trailing whitespace
up to the anchor. -/
def parseAfterDev (l : List Char) : Option (Option (List (Sum Nat String))) :=
  match l with
  | '+' :: rest => (parseLocalList rest.length rest).map some
  | _ => if l.all isWS then some none else none

/-- Backtracking candidates for the optional separator and optional number
that follow a letter segment, in the order the greedy regex tries them:
separator with its digits, separator alone, then neither (a number can never
start at a separator character, so that combination is omitted). -/
def labelNumCandidates (l : List Char) : List (Nat × List Char) :=
  match l with
  | [] => [(0, [])]
  | c :: rest =>
    if isSepChar c then
      (if (rest.takeWhile isDigitChar).isEmpty then []
       else [(digitsToNat (rest.takeWhile isDigitChar), rest.dropWhile isDigitChar)]) ++
        [(0, rest), (0, c :: rest)]
    else
      (if (l.takeWhile isDigitChar).isEmpty then []
       else [(digitsToNat (l.takeWhile isDigitChar), l.dropWhile isDigitChar)]) ++ [(0, l)]

/-- Backtracking candidates for an optional separator followed by one of the
given letter labels, in alternation order; a label never starts with a
separator character, so exactly one of the two separator choices can apply. -/
def sepLabel (labels : List (List Char)) (l : List Char) : List (List Char × List Char) :=
  match l with
  | [] => []
  | c :: rest =>
    if isSepChar c then
      labels.filterMap (fun lab =>
        if startsList lab rest then some (lab, rest.drop lab.length) else none)
    else
      labels.filterMap (fun lab =>
        if startsList lab (c :: rest) then some (lab, (c :: rest).drop lab.length) else none)

/-- Dev segment then the rest: presence of dev is tried first (greedy), then
absence. -/
def parseDevStage (l : List Char) : Option (Option Nat × Option (List (Sum Nat String))) :=
  let withDev := (sepLabel ["dev".data] l).findSome? (fun p =>
    (labelNumCandidates p.2).findSome? (fun q =>
      (parseAfterDev q.2).map (fun loc => (some q.1, loc))))
  match withDev with
  | some r => some r
  | none => (parseAfterDev l).map (fun loc => (none, loc))

/-- Post segment then the rest: the dash-number alternative first, then the
lettered form with labels post, rev, r, then absence. All letters normalize
to post, so only the number enters the comparison key. -/
def parsePostStage (l : List Char) :
    Option (Option Nat × Option Nat × Option (List (Sum Nat String))) :=
  let alt1 :=
    match l with
    | '-' :: rest =>
      if (rest.takeWhile isDigitChar).isEmpty then none
      else (parseDevStage (rest.dropWhile isDigitChar)).map
        (fun (r : Option Nat × Option (List (Sum Nat String))) =>
          (some (digitsToNat (rest.takeWhile isDigitChar)), r.1, r.2))
    | _ => none
  match alt1 with
  | some r => some r
  | none =>
    let alt2 := (sepLabel ["post".data, "rev".data, "r".data] l).findSome? (fun p =>
      (labelNumCandidates p.2).findSome? (fun q =>
        (parseDevStage q.2).map
          (fun (r : Option Nat × Option (List (Sum Nat String))) =>
            (some q.1, r.1, r.2))))
    match alt2 with
    | some r => some r
    | none =>
      (parseDevStage l).map
        (fun (r : Option Nat × Option (List (Sum Nat String))) => (none, r.1, r.2))

/-- Normalized pre-release letter (packaging maps alpha to a, beta to b, and
c, pre, preview to rc). -/
def normPre (lab : List Char) : String :=
  if lab = "alpha".data then "a"
  else if lab = "beta".data then "b"
  else if lab = "c".data ∨ lab = "pre".data ∨ lab = "preview".data then "rc"
  else ⟨lab⟩

/-- Pre-release segment then the rest, labels in the alternation order of the
packaging pattern. -/
def parsePreStage (l : List Char) :
    Option (Option (String × Nat) × Option Nat × Option Nat ×
      Option (List (Sum Nat String))) :=
  let labels := ["alpha".data, "a".data, "b".data, "beta".data, "c".data,
    "rc".data, "pre".data, "preview".data]
  let withPre := (sepLabel labels l).findSome? (fun p =>
    (labelNumCandidates p.2).findSome? (fun q =>
      (parsePostStage q.2).map
        (fun (r : Option Nat × Option Nat × Option (List (Sum Nat String))) =>
          (some (normPre p.1, q.1), r.1, r.2.1, r.2.2))))
  match withPre with
  | some r => some r
  | none =>
    (parsePostStage l).map
      (fun (r : Option Nat × Option Nat × Option (List (Sum Nat String))) =>
        (none, r.1, r.2.1, r.2.2))

/-- Remaining dot-separated numeric groups of the release segment; the greedy
regex consumes every dot-digit group, and no later segment can begin with a
dot followed by a digit. Fuel is the input length. -/
def releaseTail : Nat → List Char → List Nat × List Char
  | 0, l => ([], l)
  | fuel + 1, l =>
    match l with
    | '.' :: rest =>
      if (rest.takeWhile isDigitChar).isEmpty then ([], l)
      else
        let r := releaseTail fuel (rest.dropWhile isDigitChar)
        (digitsToNat (rest.takeWhile isDigitChar) :: r.1, r.2)
    | _ => ([], l)

/-- Parsed PEP 440 version. -/
structure PyVersion where
  epoch : Nat
  release : List Nat
  pre : Option (String × Nat)
  post : Option Nat
  dev : Option Nat
  localver : Option (List (Sum Nat String))
deriving DecidableEq

/-- Model of packaging.version.parse: lowercase the input (the pattern is
case-insensitive), strip leading whitespace, one optional v, an optional
numeric epoch before an exclamation mark, the dotted numeric release, then
the optional pre, post, dev and local segments and trailing whitespace; any
input the grammar rejects raises InvalidVersion, modelled as None. -/
def pyVersionParse (input : List Char) : Option PyVersion :=
  let l0 := (input.map lowerChar).dropWhile isWS
  let l1 :=
    match l0 with
    | 'v' :: r => r
    | r => r
  let ep :=
    match l1.dropWhile isDigitChar with
    | '!' :: r2 =>
      if (l1.takeWhile isDigitChar).isEmpty then (0, l1)
      else (digitsToNat (l1.takeWhile isDigitChar), r2)
    | _ => (0, l1)
  if (ep.2.takeWhile isDigitChar).isEmpty then none
  else
    let tail := releaseTail (ep.2.dropWhile isDigitChar).length (ep.2.dropWhile isDigitChar)
    (parsePreStage tail.2).map
      (fun (r : Option (String × Nat) × Option Nat × Option Nat ×
          Option (List (Sum Nat String))) =>
        ⟨ep.1, digitsToNat (ep.2.takeWhile isDigitChar) :: tail.1,
          r.1, r.2.1, r.2.2.1, r.2.2.2⟩)

/-- Comparison key, the part of packaging Version ordering relevant to
equality: the epoch, the release with trailing zeros removed, and the
normalized pre, post, dev and local segments (the infinity sentinels the
library substitutes for absent segments only affect ordering, never
equality, so Option equality is faithful). -/
def pyKey (v : PyVersion) : PyVersion :=
  { v with release := dropTrailingZeros v.release }

/-- Embeds _versions_equal (custom_components/atc_mithermometer/__init__.py,
lines 41-78): lstrip the lowercase v from both inputs, try to parse both with
packaging.version.parse, compare the parsed versions by their comparison
keys, and on InvalidVersion from either parse fall back to string equality of
the lstripped forms. -/
def versions_equal (version1 version2 : String) : Bool :=
  let v1 := lstripV version1.data
  let v2 := lstripV version2.data
  match pyVersionParse v1, pyVersionParse v2 with
  | some x, some y => decide (pyKey x = pyKey y)
  | _, _ => v1 == v2

/-- The algorithm as the specification words it (section 4.1): strip a single
leading v or V from each input, attempt a semantic-version parse of both, and
if either fails to parse fall back to case-sensitive string equality of the
prefix-stripped forms. -/
def stripOneV : List Char → List Char
  | 'v' :: rest => rest
  | 'V' :: rest => rest
  | l => l

/-- Version equality as described by the specification (section 4.1), for
comparison against the source definition versions_equal: a single leading v
or V is stripped, then the same semantic-version parse and key comparison,
with string equality of the stripped forms as the fallback. -/
def versions_equal_spec (version1 version2 : String) : Bool :=
  let v1 := stripOneV version1.data
  let v2 := stripOneV version2.data
  match pyVersionParse v1, pyVersionParse v2 with
  | some x, some y => decide (pyKey x = pyKey y)
  | _, _ => v1 == v2

/-! ## Theorems for claim C3 (version comparison) -/

/-- Boolean equality test is symmetric for lawful BEq instances. -/
theorem beq_symm_helper {α : Type} [BEq α] [LawfulBEq α] (x y : α) :
    (x == y) = (y == x) := by
  by_cases h : x = y
  · subst h; rfl
  · have h1 : (x == y) = false := beq_eq_false_iff_ne.mpr h
    have h2 : (y == x) = false := beq_eq_false_iff_ne.mpr (Ne.symm h)
    rw [h1, h2]

/-- C3 counterexample: the claim says a single leading v or V is stripped from
each input before comparison, so on the pair (Vabc, abc), which fails every
semantic-version parse, the fallback would compare abc with abc and return
true; the code instead lstrips only lowercase v characters, so it compares
Vabc with abc and returns false. -/
theorem versions_equal_claim_counterexample :
    versions_equal_spec "Vabc" "abc" = true ∧
    versions_equal "Vabc" "abc" = false := by
  constructor <;> decide

/-- Two decidable equality tests agree under exchange of the sides. -/
theorem decide_eq_comm {α : Type} [DecidableEq α] (x y : α) :
    decide (x = y) = decide (y = x) := by
  by_cases h : x = y
  · subst h; rfl
  · rw [decide_eq_false h, decide_eq_false (Ne.symm h)]

/-- C3 (amended): versions_equal strips every leading lowercase v (an
uppercase V prefix is not stripped, though the version parser itself
tolerates one case-insensitive v prefix); if both lstripped forms parse under
the PEP 440 grammar it compares the parsed versions by their normalized
comparison keys (so 1.0 equals 1.0.0, v1.2 equals 1.2, and 1.0.0rc1 equals
1.0rc1), otherwise it falls back to case-sensitive string equality of the
lstripped forms; it is symmetric and total (never raises). -/
theorem versions_equal_behavior :
    (∀ a b : String, versions_equal a b = versions_equal b a) ∧
    versions_equal "v1.0" "1.0.0" = true ∧
    versions_equal "1.0" "1.0.0" = true ∧
    versions_equal "v1.2" "1.2" = true ∧
    versions_equal "1.0.0rc1" "1.0rc1" = true ∧
    versions_equal "1.0.0rc1" "1.0rc2" = false ∧
    (∀ a b : String, ∀ x y : PyVersion,
      pyVersionParse (lstripV a.data) = some x →
      pyVersionParse (lstripV b.data) = some y →
      versions_equal a b = decide (pyKey x = pyKey y)) ∧
    (∀ a b : String,
      pyVersionParse (lstripV a.data) = none ∨ pyVersionParse (lstripV b.data) = none →
      versions_equal a b = (lstripV a.data == lstripV b.data)) := by
  refine ⟨?_, by decide, by decide, by decide, by decide, by decide, ?_, ?_⟩
  · intro a b
    simp only [versions_equal]
    cases h1 : pyVersionParse (lstripV a.data) <;>
      cases h2 : pyVersionParse (lstripV b.data)
    · exact beq_symm_helper _ _
    · exact beq_symm_helper _ _
    · exact beq_symm_helper _ _
    · exact decide_eq_comm _ _
  · intro a b x y h1 h2
    simp only [versions_equal]
    rw [h1, h2]
  · intro a b h
    simp only [versions_equal]
    rcases h with h | h
    · rw [h]
    · rw [h]
      cases pyVersionParse (lstripV a.data) <;> rfl

/-- C3 witness: instantiates each quantified part of versions_equal_behavior
at concrete version strings. -/
theorem versions_equal_behavior_witness :
    versions_equal "v1.0" "V1.0.0" = versions_equal "V1.0.0" "v1.0" ∧
    versions_equal "2.5" "2.5.0" =
      decide (pyKey ⟨0, [2, 5], none, none, none, none⟩ =
        pyKey ⟨0, [2, 5, 0], none, none, none, none⟩) ∧
    versions_equal "beta" "beta" = (lstripV "beta".data == lstripV "beta".data) :=
  ⟨versions_equal_behavior.1 "v1.0" "V1.0.0",
   versions_equal_behavior.2.2.2.2.2.2.1 "2.5" "2.5.0"
     ⟨0, [2, 5], none, none, none, none⟩ ⟨0, [2, 5, 0], none, none, none, none⟩
     (by decide) (by decide),
   versions_equal_behavior.2.2.2.2.2.2.2 "beta" "beta" (Or.inl (by decide))⟩

/-! ## Integrity Validator: FirmwareManager._validate_firmware_checksum
(custom_components/atc_mithermometer/firmware.py, lines 492-561) -/

/-- Abstract model of the hashlib digests used by the validator. The hexdigest
method of hashlib always returns a lowercase hex string, recorded here as the
lower fields; nothing else about the hash functions is assumed. -/
structure HashModel where
  sha256 : List Nat → String
  sha512 : List Nat → String
  sha256_lower : ∀ d, asciiLower (sha256 d) = sha256 d
  sha512_lower : ∀ d, asciiLower (sha512 d) = sha512 d
  sha256_ne : ∀ d, sha256 d ≠ ""
  sha512_ne : ∀ d, sha512 d ≠ ""

/-- Embeds FirmwareManager._validate_firmware_checksum. A None checksum or
checksum_type, and also an empty string for either (Python truthiness of the
condition: if not checksum or not checksum_type), passes as unverifiable; md5
and sha1 are rejected outright; sha256 and sha512 compare digests after
lowercasing both sides; any other type name is rejected. -/
def validate_firmware_checksum (H : HashModel) (firmware_data : List Nat)
    (checksum checksum_type : Option String) : Bool :=
  match checksum, checksum_type with
  | some c, some t =>
    if c = "" ∨ t = "" then true
    else
      let tl := asciiLower t
      if tl = "md5" ∨ tl = "sha1" then false
      else if tl = "sha256" then asciiLower (H.sha256 firmware_data) == asciiLower c
      else if tl = "sha512" then asciiLower (H.sha512 firmware_data) == asciiLower c
      else false
  | _, _ => true

/-- Concrete hash model used for closed witnesses: digests depend only on the
payload length, which is enough to exhibit digest mismatches. -/
def hashModel0 : HashModel where
  sha256 := fun d => ⟨'a' :: List.replicate d.length 'a'⟩
  sha512 := fun d => ⟨'b' :: List.replicate d.length 'b'⟩
  sha256_lower := by
    intro d
    show String.mk (('a' :: List.replicate d.length 'a').map lowerChar) = _
    have h : lowerChar 'a' = 'a' := by decide
    rw [List.map_cons, List.map_replicate, h]
  sha512_lower := by
    intro d
    show String.mk (('b' :: List.replicate d.length 'b').map lowerChar) = _
    have h : lowerChar 'b' = 'b' := by decide
    rw [List.map_cons, List.map_replicate, h]
  sha256_ne := by
    intro d h
    have h2 := congrArg String.data h
    exact List.cons_ne_nil _ _ h2
  sha512_ne := by
    intro d h
    have h2 := congrArg String.data h
    exact List.cons_ne_nil _ _ h2

/-! ## Theorems for claim C5 (checksum validation) -/

/-- Lowercasing a string preserves emptiness. -/
theorem asciiLower_eq_empty_iff (s : String) : asciiLower s = "" ↔ s = "" := by
  constructor
  · intro h
    have h2 : s.data.map lowerChar = [] := congrArg String.data h
    exact String.ext (List.map_eq_nil_iff.mp h2)
  · intro h
    subst h
    rfl

/-- C5 counterexample: the claim quantifies over every checksum c with type
md5, but the code treats an empty checksum string as falsy (if not checksum)
and returns True before the weak-algorithm rejection is reached. -/
theorem validate_firmware_checksum_counterexample :
    validate_firmware_checksum hashModel0 [0] (some "") (some "md5") = true := by
  decide

/-- C5 (amended): validation passes with both fields absent; every NONEMPTY
checksum with a type naming md5 or sha1 (any letter case) is rejected; the
digest of the data itself validates with type sha256; the comparison is
case-insensitive in both the checksum and the type name; and data whose
sha256 digest differs from the expected one is rejected. -/
theorem validate_firmware_checksum_behavior :
    ∀ H : HashModel,
    (∀ data, validate_firmware_checksum H data none none = true) ∧
    (∀ data c t, c ≠ "" → (asciiLower t = "md5" ∨ asciiLower t = "sha1") →
      validate_firmware_checksum H data (some c) (some t) = false) ∧
    (∀ data, validate_firmware_checksum H data (some (H.sha256 data)) (some "sha256") = true) ∧
    (∀ data c₁ c₂ t, asciiLower c₁ = asciiLower c₂ →
      validate_firmware_checksum H data (some c₁) (some t) =
        validate_firmware_checksum H data (some c₂) (some t)) ∧
    (∀ data c t₁ t₂, asciiLower t₁ = asciiLower t₂ →
      validate_firmware_checksum H data (some c) (some t₁) =
        validate_firmware_checksum H data (some c) (some t₂)) ∧
    (∀ data data₂, H.sha256 data₂ ≠ H.sha256 data →
      validate_firmware_checksum H data₂ (some (H.sha256 data)) (some "sha256") = false) := by
  intro H
  refine ⟨fun _ => rfl, ?_, ?_, ?_, ?_, ?_⟩
  · intro data c t hc ht
    have ht' : t ≠ "" := by
      intro h
      subst h
      rcases ht with ht | ht <;> exact absurd ht (by decide)
    simp only [validate_firmware_checksum]
    rw [if_neg (by push_neg; exact ⟨hc, ht'⟩), if_pos ht]
  · intro data
    simp only [validate_firmware_checksum]
    have hA : ¬(H.sha256 data = "" ∨ ("sha256" : String) = "") := by
      push_neg
      exact ⟨H.sha256_ne data, by decide⟩
    have h1 : asciiLower "sha256" = "sha256" := by decide
    rw [if_neg hA, h1, if_neg (by decide), if_pos rfl]
    simp
  · intro data c₁ c₂ t h
    have he : c₁ = "" ↔ c₂ = "" := by
      rw [← asciiLower_eq_empty_iff c₁, ← asciiLower_eq_empty_iff c₂, h]
    simp only [validate_firmware_checksum]
    by_cases h1 : c₁ = ""
    · rw [if_pos (Or.inl h1), if_pos (Or.inl (he.mp h1))]
    · by_cases h2 : t = ""
      · rw [if_pos (Or.inr h2), if_pos (Or.inr h2)]
      · have hA : ¬(c₁ = "" ∨ t = "") := by push_neg; exact ⟨h1, h2⟩
        have hB : ¬(c₂ = "" ∨ t = "") := by
          push_neg
          exact ⟨fun hh => h1 (he.mpr hh), h2⟩
        rw [if_neg hA, if_neg hB, h]
  · intro data c t₁ t₂ h
    have he : t₁ = "" ↔ t₂ = "" := by
      rw [← asciiLower_eq_empty_iff t₁, ← asciiLower_eq_empty_iff t₂, h]
    simp only [validate_firmware_checksum]
    by_cases h1 : t₁ = ""
    · rw [if_pos (Or.inr h1), if_pos (Or.inr (he.mp h1))]
    · by_cases h2 : c = ""
      · rw [if_pos (Or.inl h2), if_pos (Or.inl h2)]
      · have hA : ¬(c = "" ∨ t₁ = "") := by push_neg; exact ⟨h2, h1⟩
        have hB : ¬(c = "" ∨ t₂ = "") := by
          push_neg
          exact ⟨h2, fun hh => h1 (he.mpr hh)⟩
        rw [if_neg hA, if_neg hB, h]
  · intro data data₂ hne
    simp only [validate_firmware_checksum]
    have hA : ¬(H.sha256 data = "" ∨ ("sha256" : String) = "") := by
      push_neg
      exact ⟨H.sha256_ne data, by decide⟩
    have h1 : asciiLower "sha256" = "sha256" := by decide
    rw [if_neg hA, h1, if_neg (by decide), if_pos rfl]
    rw [H.sha256_lower, H.sha256_lower]
    exact beq_eq_false_iff_ne.mpr hne

/-- C5 witness: instantiates each quantified part of
validate_firmware_checksum_behavior at concrete payloads and checksums. -/
theorem validate_firmware_checksum_behavior_witness :
    validate_firmware_checksum hashModel0 [1] (some "DEAD") (some "MD5") = false ∧
    validate_firmware_checksum hashModel0 [1] (some (hashModel0.sha256 [1])) (some "sha256") = true ∧
    validate_firmware_checksum hashModel0 [1] (some "AA") (some "sha256") =
      validate_firmware_checksum hashModel0 [1] (some "aa") (some "sha256") ∧
    validate_firmware_checksum hashModel0 [1] (some "zz") (some "SHA256") =
      validate_firmware_checksum hashModel0 [1] (some "zz") (some "sha256") ∧
    validate_firmware_checksum hashModel0 [1, 2] (some (hashModel0.sha256 [1])) (some "sha256") = false :=
  ⟨(validate_firmware_checksum_behavior hashModel0).2.1 [1] "DEAD" "MD5"
      (by decide) (Or.inl (by decide)),
   (validate_firmware_checksum_behavior hashModel0).2.2.1 [1],
   (validate_firmware_checksum_behavior hashModel0).2.2.2.1 [1] "AA" "aa" "sha256" (by decide),
   (validate_firmware_checksum_behavior hashModel0).2.2.2.2.1 [1] "zz" "SHA256" "sha256" (by decide),
   (validate_firmware_checksum_behavior hashModel0).2.2.2.2.2 [1] [1, 2] (by decide)⟩

/-! ## MAC normalization: normalize_mac
(custom_components/atc_mithermometer/const.py, lines 70-106) -/

/-- Tail of a hex-digit run for the int(s, 16) grammar: after the first digit,
single underscores are permitted between digits (PEP 515), never doubled and
never trailing. -/
def hexRunTail : List Char → Bool
  | [] => true
  | ['_'] => false
  | '_' :: c :: rest => isHexDigit c && hexRunTail rest
  | c :: rest => isHexDigit c && hexRunTail rest

/-- Non-empty hex-digit run, possibly with internal underscores. -/
def hexRun : List Char → Bool
  | [] => false
  | c :: rest => isHexDigit c && hexRunTail rest

/-- Digit part after a 0x or 0X base marker: one underscore may directly
follow the marker. -/
def pyInt16Tail (l : List Char) : Bool :=
  hexRun l ||
    (match l with
     | '_' :: r => hexRun r
     | _ => false)

/-- Strip whitespace from both ends. -/
def stripWSBoth (l : List Char) : List Char :=
  ((l.dropWhile isWS).reverse.dropWhile isWS).reverse

/-- Model of which strings CPython int(s, 16) accepts: optional surrounding
whitespace, an optional sign, an optional 0x or 0X base marker, then a
non-empty run of hex digits with single underscores allowed between digits. -/
def pyIntAccepts16 (l : List Char) : Bool :=
  let l1 := stripWSBoth l
  let l2 :=
    match l1 with
    | '+' :: r => r
    | '-' :: r => r
    | r => r
  match l2 with
  | '0' :: 'x' :: rest => pyInt16Tail rest
  | '0' :: 'X' :: rest => pyInt16Tail rest
  | r => hexRun r

/-- Join character-pair groups with colons, models the str.join expression in
normalize_mac. -/
def joinWithColon : List (List Char) → List Char
  | [] => []
  | [g] => g
  | g :: gs => g ++ ':' :: joinWithColon gs

/-- Embeds normalize_mac (const.py 70-106): remove colon, dash and dot
separators, uppercase, require exactly 12 characters, validate with
int(mac_clean, 16), and join pairs with colons. The two error branches carry
the messages of the two raise statements. -/
def normalize_mac (mac : String) : Except String String :=
  let mac_clean :=
    (mac.data.filter (fun c => !(c = ':' || c = '-' || c = '.'))).map upperChar
  if mac_clean.length ≠ 12 then
    Except.error ("Invalid MAC address length: " ++ mac ++ " (expected 12 hex chars)")
  else if pyIntAccepts16 mac_clean then
    Except.ok ⟨joinWithColon ((List.range 6).map
      (fun k => (mac_clean.drop (2 * k)).take 2))⟩
  else
    Except.error ("Invalid MAC address: " ++ mac ++ " (non-hex characters)")

/-! ## Theorem for claim C6 (MAC normalization) -/

/-- C6: evaluation at the failing input. The docstring of normalize_mac
promises a ValueError when the MAC address contains invalid characters, and
the claim says any non-hexadecimal character raises; but int(mac_clean, 16)
accepts a 0x base marker, so the twelve-character input 0x1122334455, whose
cleaned form contains the non-hex character X, is returned as
0X:11:22:33:44:55 instead of raising. A well-formed mixed-case mixed-separator
input is normalized as documented. -/
theorem normalize_mac_accepts_0x_input :
    normalize_mac "0x1122334455" = Except.ok "0X:11:22:33:44:55" ∧
    ('X' ∈ "0X:11:22:33:44:55".data ∧ isHexDigit 'X' = false) ∧
    normalize_mac "aA-bB.cC:dD-eE-fF" = Except.ok "AA:BB:CC:DD:EE:FF" :=
  ⟨rfl, by decide, rfl⟩

/-! ## Constants (custom_components/atc_mithermometer/const.py) -/

def CHUNK_SIZE : Nat := 244
def MIN_FIRMWARE_SIZE : Nat := 1024
def MAX_FIRMWARE_SIZE : Nat := 512 * 1024
def MAX_RETRIES : Nat := 3
def RETRY_DELAY_BASE : Nat := 2

/-! ## Event traces: the externally visible effects of the embedded code -/

/-- Externally visible events: HTTP requests, backoff sleeps (seconds), BLE
connection attempts, OTA control and data channel writes, and invocations of
the progress callback handed to flash_firmware. -/
inductive Event where
  | httpGet (url : String)
  | sleep (seconds : Nat)
  | bleConnect
  | controlWrite (b : Nat)
  | dataWrite (chunk : List Nat)
  | progress (current total : Nat)
deriving DecidableEq

/-- Outcome of one HTTP GET in the environment: a status code with a body, or
a timeout, or a transport error (aiohttp.ClientError). -/
inductive HttpOutcome where
  | status (code : Nat) (body : List Nat)
  | timeout
  | clientError

/-! ## Artifact Fetcher: FirmwareManager.download_firmware
(custom_components/atc_mithermometer/firmware.py, lines 175-238) -/

/-- Embeds download_firmware: refuse non-HTTPS URLs before any request, then
issue one GET; a non-200 status, a timeout, a transport error, or a payload
outside the [MIN_FIRMWARE_SIZE, MAX_FIRMWARE_SIZE] bounds yields None. -/
def download_firmware (net : String → HttpOutcome) (download_url : String) :
    List Event × Option (List Nat) :=
  if !(startsList "https://".data download_url.data) then
    ([], none)
  else
    match net download_url with
    | HttpOutcome.timeout => ([Event.httpGet download_url], none)
    | HttpOutcome.clientError => ([Event.httpGet download_url], none)
    | HttpOutcome.status code body =>
      if code ≠ 200 then ([Event.httpGet download_url], none)
      else if body.length < MIN_FIRMWARE_SIZE then ([Event.httpGet download_url], none)
      else if body.length > MAX_FIRMWARE_SIZE then ([Event.httpGet download_url], none)
      else ([Event.httpGet download_url], some body)

/-! ## Theorems for claim C4 (download guards) -/

/-- C4: a non-HTTPS URL is refused with an empty event trace, so no network
request is issued; and a 200 response whose payload is smaller than 1024
bytes or larger than 512 KiB yields None rather than the payload. -/
theorem download_firmware_guards :
    (∀ (net : String → HttpOutcome) (url : String),
      startsList "https://".data url.data = false →
      download_firmware net url = ([], none)) ∧
    (∀ (net : String → HttpOutcome) (url : String) (body : List Nat),
      startsList "https://".data url.data = true →
      net url = HttpOutcome.status 200 body →
      (body.length < MIN_FIRMWARE_SIZE ∨ body.length > MAX_FIRMWARE_SIZE) →
      download_firmware net url = ([Event.httpGet url], none)) := by
  constructor
  · intro net url h
    simp [download_firmware, h]
  · intro net url body h hnet hsize
    simp only [download_firmware, h, Bool.not_true, Bool.false_eq_true, if_false, hnet]
    rcases hsize with hs | hs
    · simp [hs]
    · have h1 : ¬(body.length < MIN_FIRMWARE_SIZE) := by
        simp only [MIN_FIRMWARE_SIZE, MAX_FIRMWARE_SIZE] at hs ⊢
        omega
      simp [h1, hs]

/-- C4 witness: a plain-HTTP URL is refused without a request, and an HTTPS
download whose 200 response carries only 100 bytes is rejected. -/
theorem download_firmware_guards_witness :
    download_firmware (fun _ => HttpOutcome.status 200 (List.replicate 100 0)) "http://a.bin"
      = ([], none) ∧
    download_firmware (fun _ => HttpOutcome.status 200 (List.replicate 100 0)) "https://a.bin"
      = ([Event.httpGet "https://a.bin"], none) :=
  ⟨download_firmware_guards.1 _ "http://a.bin" (by decide),
   download_firmware_guards.2 _ "https://a.bin" (List.replicate 100 0) (by decide) rfl
     (Or.inl (by decide))⟩

/-! ## OTA Transfer Engine: FirmwareManager.flash_firmware
(custom_components/atc_mithermometer/firmware.py, lines 240-304) -/

/-- Environment for one flash operation: whether the Device Directory resolves
a connectable BLE device for the address, and whether the opened BleakClient
reports is_connected. Writes themselves succeed in this environment; write
failures are absorbed by the except handlers and modelled by connectOk for
the claims at hand. -/
structure FlashEnv where
  deviceFound : Bool
  connectOk : Bool

/-- Data-channel and progress events of the chunk loop of flash_firmware:
for i in range(0, len(firmware_data), CHUNK_SIZE), write the slice
firmware_data[i : i + CHUNK_SIZE], then invoke the progress callback (when
one was supplied) with (chunk_num + 1, total_chunks). -/
def flashChunkEvents (firmware_data : List Nat) (hasCb : Bool) : List Event :=
  let total := (firmware_data.length + CHUNK_SIZE - 1) / CHUNK_SIZE
  (List.range total).flatMap (fun k =>
    Event.dataWrite ((firmware_data.drop (k * CHUNK_SIZE)).take CHUNK_SIZE) ::
      (if hasCb then [Event.progress (k + 1) total] else []))

/-- Embeds flash_firmware: device resolution failure raises and is caught with
no connection attempted; a connection that is not is_connected fails after the
connection attempt; otherwise the OTA start control byte 1, the sequential
chunk writes with progress callbacks, and the finalize control byte 2 are
issued and the call returns True. -/
def flash_firmware (env : FlashEnv) (firmware_data : List Nat) (hasCb : Bool) :
    Bool × List Event :=
  if !env.deviceFound then (false, [])
  else if !env.connectOk then (false, [Event.bleConnect])
  else
    (true, Event.bleConnect :: Event.controlWrite 1 ::
      (flashChunkEvents firmware_data hasCb ++ [Event.controlWrite 2]))

/-- Progress-callback invocations recorded in a trace, in order. -/
def progressCalls (evs : List Event) : List (Nat × Nat) :=
  evs.filterMap (fun e =>
    match e with
    | Event.progress c t => some (c, t)
    | _ => none)

/-- Data-channel chunk writes recorded in a trace, in order. -/
def dataWrites (evs : List Event) : List (List Nat) :=
  evs.filterMap (fun e =>
    match e with
    | Event.dataWrite c => some c
    | _ => none)

/-! ## Theorems for claims C8 and C10 (flash chunking and progress) -/

/-- A filterMap distributes over bind. -/
theorem filterMap_bind_helper {α β γ : Type} (l : List α) (g : α → List β)
    (f : β → Option γ) :
    List.filterMap f (l.flatMap g) = l.flatMap (fun a => List.filterMap f (g a)) := by
  induction l with
  | nil => rfl
  | cons x xs ih => rw [List.flatMap_cons, List.filterMap_append, ih, List.flatMap_cons]

/-- A bind producing singletons is a map. -/
theorem bind_single_helper {α γ : Type} (l : List α) (f : α → γ) :
    (l.flatMap fun a => [f a]) = l.map f := by
  induction l with
  | nil => rfl
  | cons x xs ih => rw [List.flatMap_cons, ih]; rfl

/-- The progress calls of the chunk loop are exactly (1, total) up to
(total, total), in order. -/
theorem progressCalls_flashChunkEvents (firmware_data : List Nat) :
    progressCalls (flashChunkEvents firmware_data true) =
      (List.range ((firmware_data.length + CHUNK_SIZE - 1) / CHUNK_SIZE)).map
        (fun k => (k + 1, (firmware_data.length + CHUNK_SIZE - 1) / CHUNK_SIZE)) := by
  unfold flashChunkEvents progressCalls
  rw [filterMap_bind_helper]
  simp only [if_pos trivial]
  rw [← bind_single_helper]
  congr 1

/-- The data writes of the chunk loop are exactly the in-order slices of the
payload. -/
theorem dataWrites_flashChunkEvents (firmware_data : List Nat) (hasCb : Bool) :
    dataWrites (flashChunkEvents firmware_data hasCb) =
      (List.range ((firmware_data.length + CHUNK_SIZE - 1) / CHUNK_SIZE)).map
        (fun k => (firmware_data.drop (k * CHUNK_SIZE)).take CHUNK_SIZE) := by
  unfold flashChunkEvents dataWrites
  rw [filterMap_bind_helper]
  rw [← bind_single_helper]
  congr 1
  funext k
  cases hasCb <;> rfl

/-- C8: when device resolution fails, flash returns False with an empty trace
(no chunk write, no connection attempt); when the device resolves and
connects, a non-empty payload is split into ceiling(length / 244) chunks,
written strictly in order as the consecutive 244-byte slices of the payload,
with one progress call after each chunk carrying (chunks_sent, total_chunks),
and the final progress call reports current equal to total. -/
theorem flash_firmware_behavior :
    (∀ (env : FlashEnv) (data : List Nat) (cb : Bool), env.deviceFound = false →
      flash_firmware env data cb = (false, [])) ∧
    (∀ (env : FlashEnv) (data : List Nat),
      env.deviceFound = true → env.connectOk = true → data ≠ [] →
      (flash_firmware env data true).1 = true ∧
      progressCalls (flash_firmware env data true).2 =
        (List.range ((data.length + CHUNK_SIZE - 1) / CHUNK_SIZE)).map
          (fun k => (k + 1, (data.length + CHUNK_SIZE - 1) / CHUNK_SIZE)) ∧
      dataWrites (flash_firmware env data true).2 =
        (List.range ((data.length + CHUNK_SIZE - 1) / CHUNK_SIZE)).map
          (fun k => (data.drop (k * CHUNK_SIZE)).take CHUNK_SIZE) ∧
      (progressCalls (flash_firmware env data true).2).length =
        (data.length + CHUNK_SIZE - 1) / CHUNK_SIZE ∧
      (progressCalls (flash_firmware env data true).2).getLast? =
        some ((data.length + CHUNK_SIZE - 1) / CHUNK_SIZE,
          (data.length + CHUNK_SIZE - 1) / CHUNK_SIZE)) := by
  constructor
  · intro env data cb h
    simp [flash_firmware, h]
  · intro env data h1 h2 hne
    have htot : 0 < (data.length + CHUNK_SIZE - 1) / CHUNK_SIZE := by
      have hlen : 0 < data.length := List.length_pos.mpr hne
      have : 1 * CHUNK_SIZE ≤ data.length + CHUNK_SIZE - 1 := by
        simp only [CHUNK_SIZE]
        omega
      exact (Nat.le_div_iff_mul_le (by simp [CHUNK_SIZE])).mpr this
    have hflash : flash_firmware env data true =
        (true, Event.bleConnect :: Event.controlWrite 1 ::
          (flashChunkEvents data true ++ [Event.controlWrite 2])) := by
      simp [flash_firmware, h1, h2]
    have hprog : progressCalls (flash_firmware env data true).2 =
        (List.range ((data.length + CHUNK_SIZE - 1) / CHUNK_SIZE)).map
          (fun k => (k + 1, (data.length + CHUNK_SIZE - 1) / CHUNK_SIZE)) := by
      rw [hflash]
      show progressCalls (flashChunkEvents data true ++ [Event.controlWrite 2]) = _
      rw [progressCalls, List.filterMap_append]
      show List.filterMap _ (flashChunkEvents data true) ++ [] = _
      rw [List.append_nil]
      exact progressCalls_flashChunkEvents data
    refine ⟨by rw [hflash], hprog, ?_, ?_, ?_⟩
    · rw [hflash]
      show dataWrites (flashChunkEvents data true ++ [Event.controlWrite 2]) = _
      rw [dataWrites, List.filterMap_append]
      show List.filterMap _ (flashChunkEvents data true) ++ [] = _
      rw [List.append_nil]
      exact dataWrites_flashChunkEvents data true
    · rw [hprog, List.length_map, List.length_range]
    · rw [hprog]
      obtain ⟨n, hn⟩ : ∃ n, (data.length + CHUNK_SIZE - 1) / CHUNK_SIZE = n + 1 :=
        ⟨(data.length + CHUNK_SIZE - 1) / CHUNK_SIZE - 1, by omega⟩
      rw [hn, List.range_succ, List.map_append]
      simp

/-- C8 witness: with the device resolved and connected, a 1000-byte payload
produces exactly five progress calls ending in (5, 5); a failed device
resolution returns False with no events. -/
theorem flash_firmware_behavior_witness :
    flash_firmware ⟨false, true⟩ [1, 2] true = (false, []) ∧
    progressCalls (flash_firmware ⟨true, true⟩ (List.replicate 1000 0) true).2 =
      [(1, 5), (2, 5), (3, 5), (4, 5), (5, 5)] := by
  constructor
  · exact flash_firmware_behavior.1 ⟨false, true⟩ [1, 2] true rfl
  · have hne : List.replicate 1000 (0 : Nat) ≠ [] :=
      List.length_pos.mp (by rw [List.length_replicate]; omega)
    have h := (flash_firmware_behavior.2 ⟨true, true⟩ (List.replicate 1000 0) rfl rfl
      hne).2.1
    rw [h, List.length_replicate]
    decide

/-- C10: flashing an empty payload with the device resolved and connected
writes zero data chunks, makes zero progress calls, still performs the OTA
start and finalize control writes, and returns True. -/
theorem flash_firmware_empty_payload :
    ∀ (env : FlashEnv) (cb : Bool), env.deviceFound = true → env.connectOk = true →
      flash_firmware env [] cb =
        (true, [Event.bleConnect, Event.controlWrite 1, Event.controlWrite 2]) := by
  intro env cb h1 h2
  simp [flash_firmware, h1, h2, flashChunkEvents, CHUNK_SIZE]

/-- C10 witness: concrete evaluation of the empty-payload flash. -/
theorem flash_firmware_empty_payload_witness :
    flash_firmware ⟨true, true⟩ [] true =
      (true, [Event.bleConnect, Event.controlWrite 1, Event.controlWrite 2]) :=
  flash_firmware_empty_payload ⟨true, true⟩ true rfl rfl

/-! ## Checksum extraction: FirmwareManager._parse_checksum_from_release
(custom_components/atc_mithermometer/firmware.py, lines 443-490) -/

/-- Position i of body matches the regex pattern of n hex characters, one or
more whitespace characters, then the escaped filename (re.search semantics of
the sha256 and sha512 patterns, with n = 64 or 128). -/
def matchesHexFilenameAt (n : Nat) (body fn : List Char) (i : Nat) : Bool :=
  let rest := body.drop i
  let h := rest.take n
  (h.length = n && h.all isHexDigit) &&
    (let rest2 := rest.drop n
     let w := (rest2.takeWhile isWS).length
     (List.range w).any (fun j => startsList fn (rest2.drop (j + 1))))

/-- Leftmost occurrence of the n-hex-then-filename pattern: re.search scans
positions left to right and the capture group is the n hex characters at the
match position. -/
def findHexFilename (n : Nat) (body fn : List Char) : Option (List Char) :=
  ((List.range body.length).find? (fun i => matchesHexFilenameAt n body fn i)).map
    (fun i => (body.drop i).take n)

/-- Greedy whitespace-star step: try the continuation after consuming the
longest run of whitespace first, backtracking one character at a time, as the
regex engine does. -/
def afterWSStar {α : Type} (p : List Char → Option α) (l : List Char) : Option α :=
  ((List.range ((l.takeWhile isWS).length + 1)).reverse).findSome? (fun j => p (l.drop j))

/-- Capture a run of exactly n hex characters at the head of l. -/
def hexGroup (n : Nat) (l : List Char) : Option (List Char) :=
  let h := l.take n
  if h.length = n && h.all isHexDigit then some h else none

/-- Position i of body matches the case-insensitive pattern
SHA256 ws* ( ws* filename ws* ) ws* = ws* hex64, returning the captured hex
characters. -/
def matchSha256FormAt (body fn : List Char) (i : Nat) : Option (List Char) :=
  let r := body.drop i
  if ciStarts ['S', 'H', 'A', '2', '5', '6'] r then
    afterWSStar (fun r1 =>
      match r1 with
      | '(' :: r2 => afterWSStar (fun r3 =>
          if ciStarts fn r3 then
            afterWSStar (fun r5 =>
              match r5 with
              | ')' :: r6 => afterWSStar (fun r7 =>
                  match r7 with
                  | '=' :: r8 => afterWSStar (hexGroup 64) r8
                  | _ => none) r6
              | _ => none) (r3.drop fn.length)
          else none) r2
      | _ => none) (r.drop 6)
  else none

/-- Leftmost match of the SHA256(filename)= pattern. -/
def findSha256Form (body fn : List Char) : Option (List Char) :=
  (List.range (body.length + 1)).findSome? (fun i => matchSha256FormAt body fn i)

/-- Embeds _parse_checksum_from_release: a falsy release body or filename
(None is modelled as the empty string, matching Python truthiness) yields
(None, None); otherwise the three patterns are tried in order - 64 hex plus
filename as sha256, the SHA256(filename)= form as sha256, then 128 hex plus
filename as sha512 - and the first match wins, the captured hex lowercased;
no match yields (None, None). -/
def parse_checksum_from_release (release_body firmware_filename : String) :
    Option String × Option String :=
  if release_body = "" ∨ firmware_filename = "" then (none, none)
  else
    match findHexFilename 64 release_body.data firmware_filename.data with
    | some h => (some (asciiLower ⟨h⟩), some "sha256")
    | none =>
      match findSha256Form release_body.data firmware_filename.data with
      | some h => (some (asciiLower ⟨h⟩), some "sha256")
      | none =>
        match findHexFilename 128 release_body.data firmware_filename.data with
        | some h => (some (asciiLower ⟨h⟩), some "sha512")
        | none => (none, none)

/-! ## Theorem for claim C7 (checksum extraction) -/

/-- A position matching the n-hex-plus-filename pattern lies inside the body
when n is positive. -/
theorem matchesHexFilenameAt_lt (n : Nat) (body fn : List Char) (i : Nat)
    (hn : 0 < n) (h : matchesHexFilenameAt n body fn i = true) : i < body.length := by
  unfold matchesHexFilenameAt at h
  simp only [Bool.and_eq_true, decide_eq_true_eq] at h
  have hlen := h.1.1
  rw [List.length_take, List.length_drop] at hlen
  omega

/-- C7: the extraction tries the three patterns in order with the first match
winning, returns the captured hex lowercased with its type, and returns
(None, None) without raising when nothing matches; on the specification
example of 64 hex characters followed by the firmware filename it extracts
that hex string as sha256. -/
theorem parse_checksum_from_release_behavior :
    (parse_checksum_from_release
        "AB0123456789abcdef0123456789abcdef0123456789abcdef0123456789abcd ATC_v1.2.3.bin"
        "ATC_v1.2.3.bin" =
      (some "ab0123456789abcdef0123456789abcdef0123456789abcdef0123456789abcd",
        some "sha256")) ∧
    (∀ body fn : String, body ≠ "" → fn ≠ "" →
      ((∃ i, matchesHexFilenameAt 64 body.data fn.data i = true) →
        (parse_checksum_from_release body fn).2 = some "sha256") ∧
      ((∀ i < body.data.length, matchesHexFilenameAt 64 body.data fn.data i = false) →
        (∃ i c, matchSha256FormAt body.data fn.data i = some c) →
        (parse_checksum_from_release body fn).2 = some "sha256") ∧
      ((∀ i < body.data.length, matchesHexFilenameAt 64 body.data fn.data i = false) →
        (∀ i < body.data.length + 1, matchSha256FormAt body.data fn.data i = none) →
        (∃ i, matchesHexFilenameAt 128 body.data fn.data i = true) →
        (parse_checksum_from_release body fn).2 = some "sha512") ∧
      ((∀ i < body.data.length, matchesHexFilenameAt 64 body.data fn.data i = false) →
        (∀ i < body.data.length + 1, matchSha256FormAt body.data fn.data i = none) →
        (∀ i < body.data.length, matchesHexFilenameAt 128 body.data fn.data i = false) →
        parse_checksum_from_release body fn = (none, none))) := by
  constructor
  · rfl
  · intro body fn hbody hfn
    have hne : ¬(body = "" ∨ fn = "") := by push_neg; exact ⟨hbody, hfn⟩
    have h64none : (∀ i < body.data.length, matchesHexFilenameAt 64 body.data fn.data i = false) →
        findHexFilename 64 body.data fn.data = none := by
      intro hall
      unfold findHexFilename
      rw [List.find?_eq_none.mpr]
      · rfl
      · intro i hi
        rw [hall i (List.mem_range.mp hi)]
        exact Bool.false_ne_true
    have hBnone : (∀ i < body.data.length + 1, matchSha256FormAt body.data fn.data i = none) →
        findSha256Form body.data fn.data = none := by
      intro hall
      unfold findSha256Form
      rw [List.findSome?_eq_none_iff.mpr]
      intro i hi
      exact hall i (List.mem_range.mp hi)
    refine ⟨?_, ?_, ?_, ?_⟩
    · rintro ⟨i, hi⟩
      have hlt := matchesHexFilenameAt_lt 64 body.data fn.data i (by omega) hi
      have : findHexFilename 64 body.data fn.data ≠ none := by
        unfold findHexFilename
        intro hcon
        rw [Option.map_eq_none'] at hcon
        have := List.find?_eq_none.mp hcon i (List.mem_range.mpr hlt)
        exact this hi
      obtain ⟨c, hc⟩ := Option.ne_none_iff_exists.mp this
      simp only [parse_checksum_from_release, if_neg hne, ← hc]
    · rintro hall ⟨i, c, hi⟩
      have hBsome : findSha256Form body.data fn.data ≠ none := by
        intro hcon
        have hlt : i < body.data.length + 1 := by
          by_contra hge
          push_neg at hge
          have hdrop : body.data.drop i = [] :=
            List.eq_nil_of_length_eq_zero (by rw [List.length_drop]; omega)
          have hnone : matchSha256FormAt body.data fn.data i = none := by
            unfold matchSha256FormAt
            rw [hdrop]
            rfl
          rw [hnone] at hi
          exact Option.noConfusion hi
        have := List.findSome?_eq_none_iff.mp hcon i (List.mem_range.mpr hlt)
        rw [this] at hi
        exact Option.noConfusion hi
      obtain ⟨c2, hc2⟩ := Option.ne_none_iff_exists.mp hBsome
      simp only [parse_checksum_from_release, if_neg hne, h64none hall, ← hc2]
    · rintro hall hallB ⟨i, hi⟩
      have hlt := matchesHexFilenameAt_lt 128 body.data fn.data i (by omega) hi
      have h128 : findHexFilename 128 body.data fn.data ≠ none := by
        unfold findHexFilename
        intro hcon
        rw [Option.map_eq_none'] at hcon
        have := List.find?_eq_none.mp hcon i (List.mem_range.mpr hlt)
        exact this hi
      obtain ⟨c, hc⟩ := Option.ne_none_iff_exists.mp h128
      simp only [parse_checksum_from_release, if_neg hne, h64none hall, hBnone hallB, ← hc]
    · intro hall hallB hall128
      have h128none : findHexFilename 128 body.data fn.data = none := by
        unfold findHexFilename
        rw [List.find?_eq_none.mpr]
        · rfl
        · intro i hi
          rw [hall128 i (List.mem_range.mp hi)]
          exact Bool.false_ne_true
      simp only [parse_checksum_from_release, if_neg hne, h64none hall, hBnone hallB, h128none]

/-- C7 witness: instantiates the quantified parts of the extraction theorem
at concrete release notes, one with a hex-plus-filename match at offset 5 and
one with no match at all. -/
theorem parse_checksum_from_release_behavior_witness :
    (parse_checksum_from_release
        "sums
0123456789abcdef0123456789abcdef0123456789abcdef0123456789abcdef f.bin"
        "f.bin").2 = some "sha256" ∧
    parse_checksum_from_release "notes" "f.bin" = (none, none) :=
  ⟨(parse_checksum_from_release_behavior.2 _ "f.bin"
      (by decide) (by decide)).1 ⟨5, by decide⟩,
   (parse_checksum_from_release_behavior.2 "notes" "f.bin"
      (by decide) (by decide)).2.2.2 (by decide) (by decide) (by decide)⟩

/-! ## Release Resolver: FirmwareManager._fetch_github_api and
FirmwareManager.get_release_by_version
(custom_components/atc_mithermometer/firmware.py, lines 69-122 and 330-441) -/

/-- Outcome of the GET issued on a given attempt: an HTTP status carrying the
parsed JSON payload, a timeout, or a transport error. -/
inductive FetchResp (α : Type) where
  | status (code : Nat) (payload : α)
  | timeout
  | clientError

/-- Retry loop of _fetch_github_api, indexed by the current attempt and the
remaining loop iterations (the source iterates attempt over
range(max_retries + 1)). A 429 response sleeps retry_delay_base ** (attempt+1)
seconds and retries while attempt < max_retries; any other non-200 status,
timeout, or transport error returns None at once. -/
def fetch_github_api_go {α : Type} (resp : Nat → FetchResp α) (url : String) :
    Nat → Nat → Option α × List Event
  | _, 0 => (none, [])
  | attempt, Nat.succ fuel =>
    match resp attempt with
    | FetchResp.timeout => (none, [Event.httpGet url])
    | FetchResp.clientError => (none, [Event.httpGet url])
    | FetchResp.status code payload =>
      if code = 429 then
        if attempt < MAX_RETRIES then
          let r := fetch_github_api_go resp url (attempt + 1) fuel
          (r.1, Event.httpGet url :: Event.sleep (RETRY_DELAY_BASE ^ (attempt + 1)) :: r.2)
        else (none, [Event.httpGet url])
      else if code ≠ 200 then (none, [Event.httpGet url])
      else (some payload, [Event.httpGet url])

/-- Embeds _fetch_github_api (firmware.py 69-122). -/
def fetch_github_api {α : Type} (resp : Nat → FetchResp α) (url : String) :
    Option α × List Event :=
  fetch_github_api_go resp url 0 (MAX_RETRIES + 1)

/-- Retry loop of get_release_by_version (firmware.py 355-403): identical to
the generic helper except that a 404 is checked first and returns None as an
expected not-found outcome. -/
def get_release_by_tag_go {α : Type} (resp : Nat → FetchResp α) (url : String) :
    Nat → Nat → Option α × List Event
  | _, 0 => (none, [])
  | attempt, Nat.succ fuel =>
    match resp attempt with
    | FetchResp.timeout => (none, [Event.httpGet url])
    | FetchResp.clientError => (none, [Event.httpGet url])
    | FetchResp.status code payload =>
      if code = 404 then (none, [Event.httpGet url])
      else if code = 429 then
        if attempt < MAX_RETRIES then
          let r := get_release_by_tag_go resp url (attempt + 1) fuel
          (r.1, Event.httpGet url :: Event.sleep (RETRY_DELAY_BASE ^ (attempt + 1)) :: r.2)
        else (none, [Event.httpGet url])
      else if code ≠ 200 then (none, [Event.httpGet url])
      else (some payload, [Event.httpGet url])

/-- A release asset as delivered by the GitHub API. -/
structure GithubAsset where
  name : String
  browser_download_url : String

/-- Release metadata as delivered by the GitHub API; optional fields model
the data.get accesses of the source. -/
structure GithubRelease where
  tag_name : Option String
  html_url : Option String
  body : Option String
  published_at : Option String
  assets : List GithubAsset

/-- Firmware release value object (firmware.py 42-52). -/
structure FirmwareRelease where
  version : String
  download_url : String
  release_url : String
  release_notes : Option String := none
  published_at : Option String := none
  checksum : Option String := none
  checksum_type : Option String := none

/-- Drop one trailing newline, modelling that a dollar anchor also matches
just before a final newline. -/
def dropFinalNewline (l : List Char) : List Char :=
  match l.getLast? with
  | some '\n' => l.dropLast
  | _ => l

/-- Model of re.match applied to the pvvx asset pattern ATC_ dot-star
backslash-dot bin dollar: an ATC_ start, a .bin end (possibly before one final
newline), and no newline in between. -/
def assetMatchPvvx (s : String) : Bool :=
  let l := dropFinalNewline s.data
  startsList ['A', 'T', 'C', '_'] l && startsList ['n', 'i', 'b', '.'] l.reverse &&
    decide (8 ≤ l.length) && ((l.drop 4).take (l.length - 8)).all (fun c => c ≠ '\n')

/-- Model of re.match applied to the atc1441 asset pattern dot-star
backslash-dot bin dollar. -/
def assetMatchAtc1441 (s : String) : Bool :=
  let l := dropFinalNewline s.data
  startsList ['n', 'i', 'b', '.'] l.reverse &&
    (l.take (l.length - 4)).all (fun c => c ≠ '\n')

/-- Feed configuration entry (const.py FIRMWARE_SOURCES). -/
structure SourceInfo where
  name : String
  repo : String
  assetMatch : String → Bool

/-- The static source table (const.py 15-28). -/
def FIRMWARE_SOURCES : List (String × SourceInfo) :=
  [("pvvx", ⟨"pvvx (Most Active)", "pvvx/ATC_MiThermometer", assetMatchPvvx⟩),
   ("atc1441", ⟨"atc1441 (Original)", "atc1441/ATC_MiThermometer", assetMatchAtc1441⟩)]

/-- Asset selection and checksum extraction shared by the release parsers
(firmware.py 405-441): first asset whose name matches the pattern wins; no
match yields None; the release body (empty when absent) is scanned for a
checksum for that filename. -/
def parseReleaseAssets (info : SourceInfo) (data : GithubRelease)
    (fallback_version : String) : Option FirmwareRelease :=
  match data.assets.find? (fun a => info.assetMatch a.name) with
  | none => none
  | some asset =>
    let cs := parse_checksum_from_release (data.body.getD "") asset.name
    some { version := data.tag_name.getD fallback_version
           download_url := asset.browser_download_url
           release_url := data.html_url.getD ""
           release_notes := data.body
           published_at := data.published_at
           checksum := cs.1
           checksum_type := cs.2 }

/-- Embeds get_release_by_version (firmware.py 330-441): unknown source yields
None; otherwise the by-tag endpoint is fetched with the retry loop and the
resulting metadata parsed for a matching asset. -/
def get_release_by_version (resp : Nat → FetchResp GithubRelease)
    (firmware_source version : String) : Option FirmwareRelease × List Event :=
  match FIRMWARE_SOURCES.lookup firmware_source with
  | none => (none, [])
  | some info =>
    let api_url :=
      "https://api.github.com/repos/" ++ info.repo ++ "/releases/tags/" ++ version
    let fr := get_release_by_tag_go resp api_url 0 (MAX_RETRIES + 1)
    match fr.1 with
    | none => (none, fr.2)
    | some data => (parseReleaseAssets info data version, fr.2)

/-! ## Theorems for claim C9 (release-metadata fetch and retry) -/

/-- C9: for the generic metadata fetch, persistent 429 responses are retried
with a backoff delay of 2^(attempt+1) seconds - 2, 4, 8, doubling per attempt,
bounded at 3 retries - and exhaust to None after four requests; a timeout, a
transport error, or any other non-200 status returns None after a single
request, with no retry. For the by-tag lookup, a 404 returns None after a
single request, and the same 429 and error policies apply. -/
theorem github_fetch_retry_behavior :
    (∀ (α : Type) (resp : Nat → FetchResp α) (url : String),
      ((∀ i, ∃ p, resp i = FetchResp.status 429 p) →
        fetch_github_api resp url =
          (none, [Event.httpGet url, Event.sleep 2, Event.httpGet url, Event.sleep 4,
            Event.httpGet url, Event.sleep 8, Event.httpGet url])) ∧
      (resp 0 = FetchResp.timeout →
        fetch_github_api resp url = (none, [Event.httpGet url])) ∧
      (resp 0 = FetchResp.clientError →
        fetch_github_api resp url = (none, [Event.httpGet url])) ∧
      (∀ c p, resp 0 = FetchResp.status c p → c ≠ 429 → c ≠ 200 →
        fetch_github_api resp url = (none, [Event.httpGet url])) ∧
      (∀ p, resp 0 = FetchResp.status 200 p →
        fetch_github_api resp url = (some p, [Event.httpGet url]))) ∧
    (∀ (resp : Nat → FetchResp GithubRelease) (ver : String),
      (∀ p, resp 0 = FetchResp.status 404 p →
        get_release_by_version resp "pvvx" ver =
          (none, [Event.httpGet
            ("https://api.github.com/repos/pvvx/ATC_MiThermometer/releases/tags/" ++ ver)])) ∧
      ((∀ i, ∃ p, resp i = FetchResp.status 429 p) →
        get_release_by_version resp "pvvx" ver =
          (none,
            [Event.httpGet
              ("https://api.github.com/repos/pvvx/ATC_MiThermometer/releases/tags/" ++ ver),
             Event.sleep 2,
             Event.httpGet
              ("https://api.github.com/repos/pvvx/ATC_MiThermometer/releases/tags/" ++ ver),
             Event.sleep 4,
             Event.httpGet
              ("https://api.github.com/repos/pvvx/ATC_MiThermometer/releases/tags/" ++ ver),
             Event.sleep 8,
             Event.httpGet
              ("https://api.github.com/repos/pvvx/ATC_MiThermometer/releases/tags/" ++ ver)])) ∧
      (resp 0 = FetchResp.timeout →
        get_release_by_version resp "pvvx" ver =
          (none, [Event.httpGet
            ("https://api.github.com/repos/pvvx/ATC_MiThermometer/releases/tags/" ++ ver)])) ∧
      (∀ c p, resp 0 = FetchResp.status c p → c ≠ 404 → c ≠ 429 → c ≠ 200 →
        get_release_by_version resp "pvvx" ver =
          (none, [Event.httpGet
            ("https://api.github.com/repos/pvvx/ATC_MiThermometer/releases/tags/" ++ ver)]))) := by
  have hl : FIRMWARE_SOURCES.lookup "pvvx" =
      some ⟨"pvvx (Most Active)", "pvvx/ATC_MiThermometer", assetMatchPvvx⟩ := rfl
  constructor
  · intro α resp url
    refine ⟨?_, ?_, ?_, ?_, ?_⟩
    · intro h
      obtain ⟨p0, h0⟩ := h 0
      obtain ⟨p1, h1⟩ := h 1
      obtain ⟨p2, h2⟩ := h 2
      obtain ⟨p3, h3⟩ := h 3
      simp [fetch_github_api, fetch_github_api_go, h0, h1, h2, h3, MAX_RETRIES,
        RETRY_DELAY_BASE]
    · intro h
      simp [fetch_github_api, fetch_github_api_go, h]
    · intro h
      simp [fetch_github_api, fetch_github_api_go, h]
    · intro c p h h1 h2
      simp [fetch_github_api, fetch_github_api_go, h, h1, h2]
    · intro p h
      simp [fetch_github_api, fetch_github_api_go, h]
  · intro resp ver
    refine ⟨?_, ?_, ?_, ?_⟩
    · intro p h
      simp [get_release_by_version, hl, get_release_by_tag_go, h]
    · intro h
      obtain ⟨p0, h0⟩ := h 0
      obtain ⟨p1, h1⟩ := h 1
      obtain ⟨p2, h2⟩ := h 2
      obtain ⟨p3, h3⟩ := h 3
      simp [get_release_by_version, hl, get_release_by_tag_go, h0, h1, h2, h3,
        MAX_RETRIES, RETRY_DELAY_BASE]
    · intro h
      simp [get_release_by_version, hl, get_release_by_tag_go, h]
    · intro c p h h1 h2 h3
      simp [get_release_by_version, hl, get_release_by_tag_go, h, h1, h2, h3]

/-- C9 witness: concrete response environments for the 429-exhaustion, 404,
timeout, and plain-error cases. -/
theorem github_fetch_retry_behavior_witness :
    fetch_github_api (fun _ => FetchResp.status 429 (0 : Nat)) "u" =
      (none, [Event.httpGet "u", Event.sleep 2, Event.httpGet "u", Event.sleep 4,
        Event.httpGet "u", Event.sleep 8, Event.httpGet "u"]) ∧
    fetch_github_api (fun _ => FetchResp.status 500 (0 : Nat)) "u" =
      (none, [Event.httpGet "u"]) ∧
    get_release_by_version (fun _ => FetchResp.status 404 ⟨none, none, none, none, []⟩)
        "pvvx" "v4.5" =
      (none, [Event.httpGet
        "https://api.github.com/repos/pvvx/ATC_MiThermometer/releases/tags/v4.5"]) ∧
    get_release_by_version (fun _ => FetchResp.timeout) "pvvx" "v4.5" =
      (none, [Event.httpGet
        "https://api.github.com/repos/pvvx/ATC_MiThermometer/releases/tags/v4.5"]) :=
  ⟨(github_fetch_retry_behavior.1 Nat _ "u").1 (fun _ => ⟨0, rfl⟩),
   (github_fetch_retry_behavior.1 Nat _ "u").2.2.2.1 500 0 rfl (by decide) (by decide),
   (github_fetch_retry_behavior.2 _ "v4.5").1 ⟨none, none, none, none, []⟩ rfl,
   (github_fetch_retry_behavior.2 _ "v4.5").2.2.1 rfl⟩

/-! ## Update Orchestrator: FirmwareManager.apply_firmware_update
(custom_components/atc_mithermometer/firmware.py, lines 563-632) and the
update entity install path ATCMiThermometerUpdate.async_install
(custom_components/atc_mithermometer/update.py, lines 241-306) -/

/-- Embeds apply_firmware_update: download, raise on a falsy result (None or
empty bytes), validate the checksum and raise on failure before any BLE
activity, then flash through the fault-tolerant progress wrapper (the wrapper
is always handed to flash_firmware as the callback object) and raise when the
flash returns False. -/
def apply_firmware_update (H : HashModel) (net : String → HttpOutcome)
    (env : FlashEnv) (release : FirmwareRelease) : List Event × Except String Bool :=
  let dl := download_firmware net release.download_url
  match dl.2 with
  | none => (dl.1, Except.error "Failed to download firmware")
  | some fd =>
    if fd = [] then (dl.1, Except.error "Failed to download firmware")
    else if validate_firmware_checksum H fd release.checksum release.checksum_type then
      let fr := flash_firmware env fd true
      if fr.1 then (dl.1 ++ fr.2, Except.ok true)
      else (dl.1 ++ fr.2, Except.error "Firmware flash failed")
    else
      (dl.1, Except.error
        "Firmware checksum validation failed. Downloaded file may be corrupted or tampered with.")

/-- Embeds ATCMiThermometerUpdate.async_install (update.py 241-306), the
update-entity install path: take the latest release from the coordinator
snapshot, raise when none is available, download, raise on a falsy result,
then flash directly - the entity install path performs no checksum validation
step - and raise when the flash returns False. UI progress-percentage state
writes are bookkeeping internal to the entity and are not part of the trace. -/
def async_install (net : String → HttpOutcome) (env : FlashEnv)
    (latest_release : Option FirmwareRelease) : List Event × Except String Unit :=
  match latest_release with
  | none => ([], Except.error "No firmware release available")
  | some rel =>
    let dl := download_firmware net rel.download_url
    match dl.2 with
    | none => (dl.1, Except.error "Failed to download firmware")
    | some fd =>
      if fd = [] then (dl.1, Except.error "Failed to download firmware")
      else
        let fr := flash_firmware env fd true
        if fr.1 then (dl.1 ++ fr.2, Except.ok ())
        else (dl.1 ++ fr.2, Except.error "Firmware flash failed")

/-- Network environment delivering a fixed valid-sized payload whose sha256
digest under hashModel0 differs from the checksum ff. -/
def netFw : String → HttpOutcome :=
  fun _ => HttpOutcome.status 200 (List.replicate 1024 7)

/-- A release carrying a sha256 checksum that does not match the payload
netFw delivers. -/
def releaseBadChecksum : FirmwareRelease :=
  { version := "v1.0"
    download_url := "https://example.com/fw.bin"
    release_url := ""
    checksum := some "ff"
    checksum_type := some "sha256" }

/-! ## Theorems for claims C2 and C1 (orchestration and error raising) -/

/-- Every event a download emits is its single HTTP GET; in particular a
download trace contains no BLE activity. -/
theorem download_firmware_events (net : String → HttpOutcome) (url : String) :
    ∀ e ∈ (download_firmware net url).1, e = Event.httpGet url := by
  intro e he
  unfold download_firmware at he
  by_cases h : startsList "https://".data url.data
  · rw [if_neg (by simp [h])] at he
    cases hnet : net url with
    | status code body =>
      rw [hnet] at he
      have he2 : e ∈ (if code ≠ 200 then ([Event.httpGet url], (none : Option (List Nat)))
          else if body.length < MIN_FIRMWARE_SIZE then ([Event.httpGet url], none)
          else if body.length > MAX_FIRMWARE_SIZE then ([Event.httpGet url], none)
          else ([Event.httpGet url], some body)).1 := he
      split_ifs at he2 <;> exact List.mem_singleton.mp he2
    | timeout =>
      rw [hnet] at he
      exact List.mem_singleton.mp he
    | clientError =>
      rw [hnet] at he
      exact List.mem_singleton.mp he
  · rw [if_pos (by simp [h])] at he
    simp at he

/-- C2: apply_firmware_update surfaces each failure as a raised typed error
rather than a boolean: a failed download raises with the download message, a
checksum-validation failure raises before any BLE connection is attempted
(the whole trace is the download HTTP GET), and a failed flash raises with
the flash message. -/
theorem apply_firmware_update_raises :
    ∀ (H : HashModel) (net : String → HttpOutcome) (env : FlashEnv)
      (release : FirmwareRelease),
    ((download_firmware net release.download_url).2 = none →
      apply_firmware_update H net env release =
        ((download_firmware net release.download_url).1,
          Except.error "Failed to download firmware")) ∧
    (∀ fd, (download_firmware net release.download_url).2 = some fd → fd ≠ [] →
      validate_firmware_checksum H fd release.checksum release.checksum_type = false →
      apply_firmware_update H net env release =
        ((download_firmware net release.download_url).1,
          Except.error
            "Firmware checksum validation failed. Downloaded file may be corrupted or tampered with.") ∧
      ∀ e ∈ (apply_firmware_update H net env release).1,
        e = Event.httpGet release.download_url) ∧
    (∀ fd, (download_firmware net release.download_url).2 = some fd → fd ≠ [] →
      validate_firmware_checksum H fd release.checksum release.checksum_type = true →
      (flash_firmware env fd true).1 = false →
      (apply_firmware_update H net env release).2 =
        Except.error "Firmware flash failed") := by
  intro H net env release
  refine ⟨?_, ?_, ?_⟩
  · intro h
    simp only [apply_firmware_update, h]
  · intro fd h hne hval
    have happ : apply_firmware_update H net env release =
        ((download_firmware net release.download_url).1,
          Except.error
            "Firmware checksum validation failed. Downloaded file may be corrupted or tampered with.") := by
      simp only [apply_firmware_update, h, if_neg hne, hval]
      rfl
    refine ⟨happ, ?_⟩
    rw [happ]
    exact download_firmware_events net release.download_url
  · intro fd h hne hval hflash
    simp only [apply_firmware_update, h, if_neg hne, hval, if_pos trivial, hflash]
    rfl

set_option maxRecDepth 8192 in
/-- C2 witness: concrete environments for the download-failure,
checksum-failure, and flash-failure raises. -/
theorem apply_firmware_update_raises_witness :
    apply_firmware_update hashModel0 (fun _ => HttpOutcome.timeout) ⟨true, true⟩
        releaseBadChecksum =
      ([Event.httpGet "https://example.com/fw.bin"],
        Except.error "Failed to download firmware") ∧
    apply_firmware_update hashModel0 netFw ⟨true, true⟩ releaseBadChecksum =
      ([Event.httpGet "https://example.com/fw.bin"],
        Except.error
          "Firmware checksum validation failed. Downloaded file may be corrupted or tampered with.") ∧
    (apply_firmware_update hashModel0 netFw ⟨false, true⟩
        { releaseBadChecksum with checksum := none, checksum_type := none }).2 =
      Except.error "Firmware flash failed" := by
  refine ⟨?_, ?_, ?_⟩
  · exact (apply_firmware_update_raises hashModel0 _ ⟨true, true⟩ releaseBadChecksum).1 rfl
  · exact ((apply_firmware_update_raises hashModel0 netFw ⟨true, true⟩
      releaseBadChecksum).2.1 (List.replicate 1024 7) rfl
      (List.length_pos.mp (by rw [List.length_replicate]; omega)) (by decide)).1
  · exact (apply_firmware_update_raises hashModel0 netFw ⟨false, true⟩
      { releaseBadChecksum with checksum := none, checksum_type := none }).2.2
      (List.replicate 1024 7) rfl
      (List.length_pos.mp (by rw [List.length_replicate]; omega)) rfl rfl

set_option maxRecDepth 8192 in
/-- C1: evaluation at the failing input. The docstring of
apply_firmware_update states it is the unified method used by both the update
entity and the apply_firmware service, and the claim says both entry points
validate integrity before flashing; but the update entity install path
(async_install) downloads and flashes without any checksum validation: on a
release whose sha256 checksum does not match the downloaded payload, the
ad-hoc service path raises before any BLE connection while the entity path
proceeds to connect and flash, reporting success. -/
theorem async_install_skips_validation :
    validate_firmware_checksum hashModel0 (List.replicate 1024 7)
      (some "ff") (some "sha256") = false ∧
    (async_install netFw ⟨true, true⟩ (some releaseBadChecksum)).2 = Except.ok () ∧
    Event.bleConnect ∈ (async_install netFw ⟨true, true⟩ (some releaseBadChecksum)).1 ∧
    (apply_firmware_update hashModel0 netFw ⟨true, true⟩ releaseBadChecksum).2 =
      Except.error
        "Firmware checksum validation failed. Downloaded file may be corrupted or tampered with." ∧
    (apply_firmware_update hashModel0 netFw ⟨true, true⟩ releaseBadChecksum).1 =
      [Event.httpGet "https://example.com/fw.bin"] := by
  refine ⟨by decide, rfl, ?_, rfl, rfl⟩
  decide

end ATC
